import Mathlib

/-
Verification of the code-runner skill (examples/skills/code-runner/runner.py):
a snippet locator over a workspace directory listing and a sandboxed executor
that runs the located file under a timeout, truncates its captured output,
echoes it, and persists a result artifact.

File names and text streams are modelled as lists of code points (the script
works on decoded Python str values throughout: os.listdir returns str names
and subprocess.run is invoked with text=True).
-/

namespace CodeRunner

/-- The fixed workspace root, the constant WORKSPACE of the script. -/
def WORKSPACE : List Char := "/workspace".data

/-- The fixed output directory, the constant OUTPUT_DIR of the script. -/
def OUTPUT_DIR : List Char := "/workspace/output".data

/-- The RUNNERS table mapping a file extension (with its leading dot) to the
interpreter command tokens, in source insertion order. -/
def RUNNERS : List (List Char × List (List Char)) :=
  [(".py".data, ["python3".data]), (".sh".data, ["bash".data])]

/-- os.path.join of a directory (no trailing slash) with a relative entry name. -/
def pathJoin (dir entry : List Char) : List Char := dir ++ '/' :: entry

/-- Index of the last dot in a file name (str.rfind of the extension
separator); none when the name contains no dot.  Entry names coming from
os.listdir contain no path separator, so only the dot search matters. -/
def rfindDot : List Char → Option Nat
  | [] => none
  | c :: rest =>
    match rfindDot rest with
    | some i => some (i + 1)
    | none => if c = '.' then some 0 else none

/-- The scan loop of CPython genericpath._splitext: walk the characters in
front of the last dot; at the first one that is not a dot, split the name at
the last dot; if every character in front of the last dot is a dot, the name
has no extension.  The first Nat argument counts the remaining iterations
(dotIndex - i), making the while loop structural. -/
def splitextLoop (p : List Char) (dotIndex : Nat) : Nat → Nat → List Char × List Char
  | 0, _ => (p, [])
  | k + 1, i =>
    if p.getD i ' ' ≠ '.' then (p.take dotIndex, p.drop dotIndex)
    else splitextLoop p dotIndex k (i + 1)

/-- os.path.splitext restricted to bare entry names (no directory part):
find the last dot and split there unless only dots precede it. -/
def splitext (p : List Char) : List Char × List Char :=
  match rfindDot p with
  | none => (p, [])
  | some dotIndex => splitextLoop p dotIndex dotIndex 0

/-- Lexicographic comparison of names by code point, the order used by the
built-in sorted() on the str names returned by os.listdir. -/
def lexLe : List Char → List Char → Bool
  | [], _ => true
  | _ :: _, [] => false
  | a :: as, b :: bs => if a < b then true else if b < a then false else lexLe as bs

/-- The ordering relation on entry names used to sort the listing. -/
def nameLe (a b : List Char) : Prop := lexLe a b = true

instance : DecidableRel nameLe :=
  fun a b => inferInstanceAs (Decidable (lexLe a b = true))

/-- The body of the for loop of find_snippet: visit entries in order, skip
entries that are not regular files, split off the extension, and return the
first (full path, extension) pair whose extension is a key of RUNNERS. -/
def findLoop (isFile : List Char → Bool) : List (List Char) → Option (List Char × List Char)
  | [] => none
  | entry :: rest =>
    if isFile (pathJoin WORKSPACE entry) then
      match RUNNERS.lookup (splitext entry).2 with
      | some _ => some (pathJoin WORKSPACE entry, (splitext entry).2)
      | none => findLoop isFile rest
    else findLoop isFile rest

/-- find_snippet(): scan the sorted workspace listing for the first code file.
The directory listing and the regular-file test of the filesystem are passed
in explicitly. -/
def find_snippet (isFile : List Char → Bool) (listing : List (List Char)) :
    Option (List Char × List Char) :=
  findLoop isFile (List.insertionSort nameLe listing)

/-- An entry that the find_snippet loop accepts: a regular file whose splitext
extension is a key of RUNNERS. -/
def entryMatches (isFile : List Char → Bool) (entry : List Char) : Bool :=
  isFile (pathJoin WORKSPACE entry) && (RUNNERS.lookup (splitext entry).2).isSome

/-- What subprocess.run did with the child: either it raised TimeoutExpired,
or the child completed with a return code and two captured, decoded text
streams (text=True). -/
inductive ChildResult where
  | timeout : ChildResult
  | completed (returncode : Int) (stdout stderr : List Char) : ChildResult

/-- State of the output directory: whether /workspace/output exists and the
content of result.txt when present. -/
structure OutputDirState where
  dirMade : Bool
  resultFile : Option (List Char)
deriving DecidableEq

/-- Python str() of an integer, as interpolated into the f-strings. -/
def renderInt (i : Int) : List Char :=
  if i < 0 then '-' :: Nat.toDigits 10 i.natAbs else Nat.toDigits 10 i.toNat

/-- The space join used for the Running line (str.join with a single space). -/
def joinSpace (xs : List (List Char)) : List Char := List.intercalate [' '] xs

/-- Observable behaviour of one run_snippet call: the code handed to sys.exit
(or returned to the main block), the spawned command and its working
directory, the truncated stdout and stderr locals (none on the timeout path,
which never computes them), the payloads printed on each console channel, and
the resulting output-directory state. -/
structure RunOutcome where
  exitCode : Int
  cmd : List (List Char)
  cwd : List Char
  stdoutTrunc : Option (List Char)
  stderrTrunc : Option (List Char)
  outLines : List (List Char)
  errLines : List (List Char)
  state : OutputDirState

/-- run_snippet(path, ext): build the command from RUNNERS, run it rooted at
the workspace under the timeout; on TimeoutExpired print the timeout error
and exit 124 leaving the output directory untouched; on completion truncate
each captured stream to MAX_OUTPUT_KB * 1024 characters, echo the non-empty
ones, overwrite the result artifact, and return the child's return code.
T and KB are the TIMEOUT and MAX_OUTPUT_KB environment values. -/
def run_snippet (T KB : Nat) (path ext : List Char) (child : ChildResult)
    (st : OutputDirState) : RunOutcome :=
  let cmd := ((RUNNERS.lookup ext).getD []) ++ [path]
  let runningLine := "Running: ".data ++ joinSpace cmd
    ++ " (timeout=".data ++ Nat.toDigits 10 T ++ "s)".data
  match child with
  | ChildResult.timeout =>
    { exitCode := 124, cmd := cmd, cwd := WORKSPACE,
      stdoutTrunc := none, stderrTrunc := none,
      outLines := [runningLine],
      errLines := ["Error: execution timed out after ".data
        ++ Nat.toDigits 10 T ++ "s".data],
      state := st }
  | ChildResult.completed rc out err =>
    let stdout := out.take (KB * 1024)
    let stderr := err.take (KB * 1024)
    let outFile := pathJoin OUTPUT_DIR ("result.txt".data)
    let content :=
      ("exit_code: ".data ++ renderInt rc ++ "\n".data)
      ++ ("--- stdout ---\n".data ++ stdout ++ "\n".data)
      ++ (if stderr = [] then []
          else "--- stderr ---\n".data ++ stderr ++ "\n".data)
    { exitCode := rc, cmd := cmd, cwd := WORKSPACE,
      stdoutTrunc := some stdout, stderrTrunc := some stderr,
      outLines := [runningLine]
        ++ (if stdout = [] then [] else ["--- stdout ---".data, stdout])
        ++ ["\nExit code: ".data ++ renderInt rc,
            "Output saved to: ".data ++ outFile],
      errLines := if stderr = [] then [] else ["--- stderr ---".data, stderr],
      state := { dirMade := true, resultFile := some content } }

/-- The main block: locate a snippet; when none is found print the error to
stderr, the supported-extension list to stdout, and exit 1; otherwise run the
snippet and exit with its return code. -/
def mainRun (T KB : Nat) (isFile : List Char → Bool) (listing : List (List Char))
    (child : ChildResult) (st : OutputDirState) : RunOutcome :=
  match find_snippet isFile listing with
  | none =>
    { exitCode := 1, cmd := [], cwd := [],
      stdoutTrunc := none, stderrTrunc := none,
      outLines := ["Supported extensions: ".data
        ++ List.intercalate (", ".data) (RUNNERS.map Prod.fst)],
      errLines := ["No runnable code found in /workspace".data],
      state := st }
  | some (path, ext) => run_snippet T KB path ext child st

/-- Byte length of the UTF-8 encoding of a decoded text stream; the artifact
file is written back out in UTF-8. -/
def utf8Len (s : List Char) : Nat := (s.map Char.utf8Size).sum

end CodeRunner

namespace CodeRunner

example : splitext ("a.py".data) = ("a".data, ".py".data) := by decide
example : splitext (".py".data) = (".py".data, []) := by decide
example : splitext ("..py".data) = ("..py".data, []) := by decide
example : splitext ("a.b.py".data) = ("a.b".data, ".py".data) := by decide
example : splitext ("a.".data) = ("a".data, ".".data) := by decide
example : splitext ("noext".data) = ("noext".data, []) := by decide
example :
    find_snippet (fun _ => true) ["b.py".data, "a.sh".data, "zz".data]
      = some (pathJoin WORKSPACE ("a.sh".data), ".sh".data) := by decide
example : find_snippet (fun _ => true) [".py".data] = none := by decide
example : find_snippet (fun _ => false) ["a.py".data] = none := by decide

/-- lexLe is reflexive. -/
theorem lexLe_refl : ∀ a : List Char, lexLe a a = true
  | [] => rfl
  | c :: rest => by
    have ih := lexLe_refl rest
    simp [lexLe, ih, lt_self_iff_false]

/-- lexLe is total. -/
theorem lexLe_total : ∀ a b : List Char, lexLe a b = true ∨ lexLe b a = true
  | [], _ => Or.inl rfl
  | _ :: _, [] => Or.inr rfl
  | a :: as, b :: bs => by
    rcases lt_trichotomy a b with h | h | h
    · exact Or.inl (by simp [lexLe, h])
    · subst h
      rcases lexLe_total as bs with ih | ih
      · exact Or.inl (by simp [lexLe, lt_self_iff_false, ih])
      · exact Or.inr (by simp [lexLe, lt_self_iff_false, ih])
    · exact Or.inr (by simp [lexLe, h])

/-- lexLe is transitive. -/
theorem lexLe_trans : ∀ a b c : List Char,
    lexLe a b = true → lexLe b c = true → lexLe a c = true
  | [], _, _, _, _ => rfl
  | _ :: _, [], _, h1, _ => by simp [lexLe] at h1
  | _ :: _, _ :: _, [], _, h2 => by simp [lexLe] at h2
  | a :: as, b :: bs, c :: cs, h1, h2 => by
    rcases lt_trichotomy a b with hab | hab | hab
    · rcases lt_trichotomy b c with hbc | hbc | hbc
      · simp [lexLe, lt_trans hab hbc]
      · subst hbc
        simp [lexLe, hab]
      · simp [lexLe, asymm hbc, hbc] at h2
    · subst hab
      rcases lt_trichotomy a c with hac | hac | hac
      · simp [lexLe, hac]
      · subst hac
        simp only [lexLe, lt_self_iff_false, if_false] at h1 h2 ⊢
        exact lexLe_trans _ _ _ h1 h2
      · simp [lexLe, asymm hac, hac] at h2
    · simp [lexLe, asymm hab, hab] at h1

/-- The find_snippet loop returns nothing exactly when no entry matches. -/
theorem findLoop_none_iff (isFile : List Char → Bool) :
    ∀ l : List (List Char),
      (findLoop isFile l = none ↔ ∀ e ∈ l, entryMatches isFile e = false)
  | [] => by simp [findLoop]
  | entry :: rest => by
    have ih := findLoop_none_iff isFile rest
    cases hf : isFile (pathJoin WORKSPACE entry) with
    | true =>
      cases hl : RUNNERS.lookup (splitext entry).2 with
      | some v =>
        have hme : entryMatches isFile entry = true := by
          simp [entryMatches, hf, hl]
        constructor
        · intro hco
          exact absurd hco (by simp [findLoop, hf, hl])
        · intro hall
          exact absurd (hall entry (List.mem_cons_self _ _)) (by simp [hme])
      | none =>
        have hme : entryMatches isFile entry = false := by
          simp [entryMatches, hf, hl]
        have hstep : findLoop isFile (entry :: rest) = findLoop isFile rest := by
          simp [findLoop, hf, hl]
        rw [hstep, ih]
        constructor
        · intro hall e he
          rcases List.mem_cons.mp he with rfl | hr
          · exact hme
          · exact hall e hr
        · intro hall e he
          exact hall e (List.mem_cons_of_mem _ he)
    | false =>
      have hme : entryMatches isFile entry = false := by
        simp [entryMatches, hf]
      have hstep : findLoop isFile (entry :: rest) = findLoop isFile rest := by
        simp [findLoop, hf]
      rw [hstep, ih]
      constructor
      · intro hall e he
        rcases List.mem_cons.mp he with rfl | hr
        · exact hme
        · exact hall e hr
      · intro hall e he
        exact hall e (List.mem_cons_of_mem _ he)

/-- On a pairwise-ordered listing the find_snippet loop returns the first,
hence lexicographically minimal, matching entry. -/
theorem findLoop_some (isFile : List Char → Bool) :
    ∀ l : List (List Char), List.Pairwise nameLe l →
      ∀ p x, findLoop isFile l = some (p, x) →
        ∃ e, e ∈ l ∧ entryMatches isFile e = true ∧ p = pathJoin WORKSPACE e
          ∧ x = (splitext e).2
          ∧ ∀ f ∈ l, entryMatches isFile f = true → nameLe e f
  | [], _, p, x, h => by simp [findLoop] at h
  | entry :: rest, hpw, p, x, h => by
    obtain ⟨h1, h2⟩ := List.pairwise_cons.mp hpw
    cases hf : isFile (pathJoin WORKSPACE entry) with
    | true =>
      cases hl : RUNNERS.lookup (splitext entry).2 with
      | some v =>
        simp only [findLoop, hf, hl, if_true] at h
        simp only [Option.some.injEq, Prod.mk.injEq] at h
        obtain ⟨hp, hx⟩ := h
        refine ⟨entry, List.mem_cons_self _ _, ?_, hp.symm, hx.symm, ?_⟩
        · simp [entryMatches, hf, hl]
        · intro f hfm hmf
          rcases List.mem_cons.mp hfm with rfl | hfr
          · exact lexLe_refl f
          · exact h1 f hfr
      | none =>
        have h' : findLoop isFile rest = some (p, x) := by
          simpa [findLoop, hf, hl] using h
        obtain ⟨e, he, hm, hp, hx, hmin⟩ := findLoop_some isFile rest h2 p x h'
        refine ⟨e, List.mem_cons_of_mem _ he, hm, hp, hx, ?_⟩
        intro f hfm hmf
        rcases List.mem_cons.mp hfm with rfl | hfr
        · exact absurd hmf (by simp [entryMatches, hf, hl])
        · exact hmin f hfr hmf
    | false =>
      have h' : findLoop isFile rest = some (p, x) := by
        simpa [findLoop, hf] using h
      obtain ⟨e, he, hm, hp, hx, hmin⟩ := findLoop_some isFile rest h2 p x h'
      refine ⟨e, List.mem_cons_of_mem _ he, hm, hp, hx, ?_⟩
      intro f hfm hmf
      rcases List.mem_cons.mp hfm with rfl | hfr
      · exact absurd hmf (by simp [entryMatches, hf])
      · exact hmin f hfr hmf

/-- rfindDot finds nothing exactly when the name contains no dot. -/
theorem rfindDot_eq_none : ∀ l : List Char, (rfindDot l = none ↔ '.' ∉ l)
  | [] => by simp [rfindDot]
  | c :: rest => by
    have ih := rfindDot_eq_none rest
    cases hr : rfindDot rest with
    | some i =>
      have hmem : '.' ∈ rest := by
        by_contra hnot
        rw [ih.mpr hnot] at hr
        exact Option.noConfusion hr
      simp [rfindDot, hr, hmem]
    | none =>
      by_cases hc : c = '.'
      · subst hc
        simp [rfindDot, hr]
      · simp [rfindDot, hr, hc, ih.mp hr, Ne.symm hc]

/-- rfindDot returns the index of an actual character of the name. -/
theorem rfindDot_lt_length : ∀ (l : List Char) (i : Nat),
    rfindDot l = some i → i < l.length
  | [], i, h => by simp [rfindDot] at h
  | c :: rest, i, h => by
    cases hr : rfindDot rest with
    | some j =>
      simp only [rfindDot, hr] at h
      injection h with h2
      have hj := rfindDot_lt_length rest j hr
      simp only [List.length_cons]
      omega
    | none =>
      by_cases hc : c = '.'
      · simp only [rfindDot, hr, hc, if_true] at h
        injection h with h2
        simp only [List.length_cons]
        omega
      · simp [rfindDot, hr, hc] at h

/-- The splitext scan splits at the last dot exactly when some character in
front of that dot is not itself a dot. -/
theorem splitextLoop_eq (p : List Char) (dotIndex : Nat) (hd : dotIndex ≤ p.length) :
    ∀ (k i : Nat), i + k = dotIndex →
      splitextLoop p dotIndex k i
        = if ∀ c ∈ (p.drop i).take k, c = '.' then (p, ([] : List Char))
          else (p.take dotIndex, p.drop dotIndex)
  | 0, i, hik => by simp [splitextLoop]
  | k + 1, i, hik => by
    have hi : i < p.length := by omega
    have hdr : p.drop i = p.getD i ' ' :: p.drop (i + 1) := by
      rw [List.getD_eq_getElem p ' ' hi]
      exact List.drop_eq_getElem_cons hi
    have hcond : (∀ c ∈ (p.drop i).take (k + 1), c = '.')
        ↔ (p.getD i ' ' = '.' ∧ ∀ c ∈ (p.drop (i + 1)).take k, c = '.') := by
      rw [hdr, List.take_succ_cons]
      exact List.forall_mem_cons
    rw [splitextLoop]
    by_cases hc : p.getD i ' ' = '.'
    · rw [if_neg (not_not_intro hc)]
      have ih := splitextLoop_eq p dotIndex hd k (i + 1) (by omega)
      rw [ih]
      by_cases hall : ∀ c ∈ (p.drop (i + 1)).take k, c = '.'
      · rw [if_pos hall, if_pos (hcond.mpr ⟨hc, hall⟩)]
      · rw [if_neg hall, if_neg (fun hco => hall (hcond.mp hco).2)]
    · rw [if_pos hc, if_neg (fun hco => hc (hcond.mp hco).1)]

/-- splitext in closed form, given the index of the last dot. -/
theorem splitext_eq (p : List Char) (d : Nat) (h : rfindDot p = some d) :
    splitext p = if ∀ c ∈ p.take d, c = '.' then (p, ([] : List Char))
      else (p.take d, p.drop d) := by
  have hd : d ≤ p.length := le_of_lt (rfindDot_lt_length p d h)
  have hm := splitextLoop_eq p d hd d 0 (by omega)
  unfold splitext
  rw [h]
  simpa [List.drop_zero] using hm

/-- C2: when the child has not terminated within the configured timeout, the
invocation exits with code 124, the error channel carries exactly one message
naming the configured timeout value, and the output directory is left exactly
as it was before the run: no artifact is written.  This holds for run_snippet
itself and is forwarded unchanged by the main block whenever the locator
found a snippet to run. -/
theorem C2_timeout_no_artifact (T KB : Nat) (path ext : List Char) (st : OutputDirState) :
    (run_snippet T KB path ext ChildResult.timeout st).exitCode = 124
    ∧ (run_snippet T KB path ext ChildResult.timeout st).errLines
        = ["Error: execution timed out after ".data ++ Nat.toDigits 10 T ++ "s".data]
    ∧ (run_snippet T KB path ext ChildResult.timeout st).state = st
    ∧ ∀ isFile listing p x, find_snippet isFile listing = some (p, x) →
        (mainRun T KB isFile listing ChildResult.timeout st).exitCode = 124
        ∧ (mainRun T KB isFile listing ChildResult.timeout st).errLines
            = ["Error: execution timed out after ".data ++ Nat.toDigits 10 T ++ "s".data]
        ∧ (mainRun T KB isFile listing ChildResult.timeout st).state = st := by
  refine ⟨rfl, rfl, rfl, ?_⟩
  intro isFile listing p x h
  have hm : mainRun T KB isFile listing ChildResult.timeout st
      = run_snippet T KB p x ChildResult.timeout st := by
    unfold mainRun
    rw [h]
  exact ⟨by rw [hm]; exact rfl, by rw [hm]; exact rfl, by rw [hm]; exact rfl⟩

/-- Witness for C2 on a concrete one-file workspace whose snippet times out:
the whole invocation exits 124, reports the 30-second timeout, and leaves the
output directory in its pre-run state. -/
theorem C2_timeout_no_artifact_witness :
    (mainRun 30 256 (fun _ => true) ["a.py".data] ChildResult.timeout
        ⟨false, none⟩).exitCode = 124
    ∧ (mainRun 30 256 (fun _ => true) ["a.py".data] ChildResult.timeout
        ⟨false, none⟩).errLines
        = ["Error: execution timed out after ".data ++ Nat.toDigits 10 30 ++ "s".data]
    ∧ (mainRun 30 256 (fun _ => true) ["a.py".data] ChildResult.timeout
        ⟨false, none⟩).state = ⟨false, none⟩ :=
  (C2_timeout_no_artifact 30 256 (pathJoin WORKSPACE ("a.py".data)) (".py".data)
      ⟨false, none⟩).2.2.2
    (fun _ => true) ["a.py".data] (pathJoin WORKSPACE ("a.py".data)) (".py".data)
    (by decide)

/-- C3: when the child exits with code rc within the timeout, run_snippet
returns rc, the main block forwards rc verbatim as the program's exit code,
and the artifact starts with an exit_code field rendering rc. -/
theorem C3_exit_code_forwarded (T KB : Nat) (rc : Int) (out err : List Char)
    (st : OutputDirState) (isFile : List Char → Bool) (listing : List (List Char))
    (p x : List Char) (h : find_snippet isFile listing = some (p, x)) :
    (run_snippet T KB p x (ChildResult.completed rc out err) st).exitCode = rc
    ∧ (mainRun T KB isFile listing (ChildResult.completed rc out err) st).exitCode = rc
    ∧ ∃ rest, (run_snippet T KB p x (ChildResult.completed rc out err) st).state.resultFile
        = some (("exit_code: ".data ++ renderInt rc ++ "\n".data) ++ rest) := by
  have hm : mainRun T KB isFile listing (ChildResult.completed rc out err) st
      = run_snippet T KB p x (ChildResult.completed rc out err) st := by
    unfold mainRun
    rw [h]
  refine ⟨rfl, by rw [hm]; exact rfl, ?_⟩
  refine ⟨("--- stdout ---\n".data ++ out.take (KB * 1024) ++ "\n".data)
    ++ (if err.take (KB * 1024) = [] then []
        else "--- stderr ---\n".data ++ err.take (KB * 1024) ++ "\n".data), ?_⟩
  have hc : (run_snippet T KB p x (ChildResult.completed rc out err) st).state.resultFile
      = some (("exit_code: ".data ++ renderInt rc ++ "\n".data)
          ++ ("--- stdout ---\n".data ++ out.take (KB * 1024) ++ "\n".data)
          ++ (if err.take (KB * 1024) = [] then []
              else "--- stderr ---\n".data ++ err.take (KB * 1024) ++ "\n".data)) := rfl
  rw [hc, List.append_assoc]

/-- Witness for C3 at a concrete one-file workspace and child exit code 7. -/
theorem C3_exit_code_forwarded_witness :
    (run_snippet 30 256 (pathJoin WORKSPACE ("a.py".data)) (".py".data)
        (ChildResult.completed 7 [] []) ⟨false, none⟩).exitCode = 7
    ∧ (mainRun 30 256 (fun _ => true) ["a.py".data]
        (ChildResult.completed 7 [] []) ⟨false, none⟩).exitCode = 7
    ∧ ∃ rest, (run_snippet 30 256 (pathJoin WORKSPACE ("a.py".data)) (".py".data)
        (ChildResult.completed 7 [] []) ⟨false, none⟩).state.resultFile
        = some (("exit_code: ".data ++ renderInt 7 ++ "\n".data) ++ rest) :=
  C3_exit_code_forwarded 30 256 7 [] [] ⟨false, none⟩ (fun _ => true) ["a.py".data]
    (pathJoin WORKSPACE ("a.py".data)) (".py".data) (by decide)

/-- C1 (amended): on normal completion each captured stream is independently
head-truncated to the first MAX_OUTPUT_KB * 1024 characters (code points) of
the decoded stream — never more characters — and exactly that truncated
stdout is what the artifact persists.  The cap counts characters, not bytes:
see the counterexample below, where the persisted bytes exceed the cap. -/
theorem C1_char_truncation (T KB : Nat) (path ext : List Char) (rc : Int)
    (out err : List Char) (st : OutputDirState) :
    (run_snippet T KB path ext (ChildResult.completed rc out err) st).stdoutTrunc
        = some (out.take (KB * 1024))
    ∧ (run_snippet T KB path ext (ChildResult.completed rc out err) st).stderrTrunc
        = some (err.take (KB * 1024))
    ∧ (out.take (KB * 1024)).length ≤ KB * 1024
    ∧ (err.take (KB * 1024)).length ≤ KB * 1024
    ∧ out.take (KB * 1024) ++ out.drop (KB * 1024) = out
    ∧ (run_snippet T KB path ext (ChildResult.completed rc out err) st).state.resultFile
        = some (("exit_code: ".data ++ renderInt rc ++ "\n".data)
            ++ ("--- stdout ---\n".data ++ out.take (KB * 1024) ++ "\n".data)
            ++ (if err.take (KB * 1024) = [] then []
                else "--- stderr ---\n".data ++ err.take (KB * 1024) ++ "\n".data)) :=
  ⟨rfl, rfl, List.length_take_le _ _, List.length_take_le _ _,
    List.take_append_drop _ _, rfl⟩

/-- C1 counterexample: with the cap configured to 1 KiB, a child stdout of
2000 copies of a two-byte character (4000 bytes, above the cap) is truncated
to 1024 characters, i.e. 2048 persisted bytes — more than the 1024-byte cap
the claim allows, so the persisted stdout is not the first 1024 bytes of the
stream. -/
theorem C1_counterexample :
    utf8Len (List.replicate 2000 'é') = 4000
    ∧ (run_snippet 30 1 (pathJoin WORKSPACE ("a.py".data)) (".py".data)
        (ChildResult.completed 0 (List.replicate 2000 'é') []) ⟨false, none⟩).stdoutTrunc
        = some (List.replicate 1024 'é')
    ∧ utf8Len (List.replicate 1024 'é') = 2048
    ∧ ¬ utf8Len (List.replicate 1024 'é') ≤ 1 * 1024 := by
  have hsz : Char.utf8Size 'é' = 2 := by decide
  have hlen : ∀ n : Nat, utf8Len (List.replicate n 'é') = n * 2 := by
    intro n
    simp [utf8Len, List.map_replicate, List.sum_replicate, hsz, smul_eq_mul]
  refine ⟨by rw [hlen], ?_, by rw [hlen], by rw [hlen]; norm_num⟩
  show some ((List.replicate 2000 'é').take (1 * 1024)) = some (List.replicate 1024 'é')
  rw [List.take_replicate]
  have hmin : min (1 * 1024) 2000 = 1024 := by decide
  rw [hmin]

/-- C5 (amended): when the locator finds nothing runnable, the invocation
exits with code 1, the failure message goes to the error channel, but the
supported-extension list goes to the normal output channel (the second print
of the main block has no file=sys.stderr). -/
theorem C5_no_snippet_channels (T KB : Nat) (isFile : List Char → Bool)
    (listing : List (List Char)) (child : ChildResult) (st : OutputDirState)
    (h : find_snippet isFile listing = none) :
    (mainRun T KB isFile listing child st).exitCode = 1
    ∧ (mainRun T KB isFile listing child st).errLines
        = ["No runnable code found in /workspace".data]
    ∧ (mainRun T KB isFile listing child st).outLines
        = ["Supported extensions: ".data
            ++ List.intercalate (", ".data) (RUNNERS.map Prod.fst)]
    ∧ (mainRun T KB isFile listing child st).state = st := by
  have hm : mainRun T KB isFile listing child st
      = { exitCode := 1, cmd := [], cwd := [],
          stdoutTrunc := none, stderrTrunc := none,
          outLines := ["Supported extensions: ".data
            ++ List.intercalate (", ".data) (RUNNERS.map Prod.fst)],
          errLines := ["No runnable code found in /workspace".data],
          state := st } := by
    unfold mainRun
    rw [h]
  exact ⟨by rw [hm], by rw [hm], by rw [hm], by rw [hm]⟩

/-- Witness for C5 (amended) on an empty workspace. -/
theorem C5_no_snippet_channels_witness :
    (mainRun 30 256 (fun _ => true) [] (ChildResult.completed 0 [] [])
        ⟨false, none⟩).exitCode = 1
    ∧ (mainRun 30 256 (fun _ => true) [] (ChildResult.completed 0 [] [])
        ⟨false, none⟩).errLines = ["No runnable code found in /workspace".data]
    ∧ (mainRun 30 256 (fun _ => true) [] (ChildResult.completed 0 [] [])
        ⟨false, none⟩).outLines = ["Supported extensions: ".data
            ++ List.intercalate (", ".data) (RUNNERS.map Prod.fst)]
    ∧ (mainRun 30 256 (fun _ => true) [] (ChildResult.completed 0 [] [])
        ⟨false, none⟩).state = ⟨false, none⟩ :=
  C5_no_snippet_channels 30 256 (fun _ => true) [] (ChildResult.completed 0 [] [])
    ⟨false, none⟩ (by decide)

/-- C5 counterexample: on an empty workspace the supported-extension list is
printed on the normal output channel and is absent from the error channel,
contradicting the claim that both messages go to the error channel. -/
theorem C5_counterexample :
    (mainRun 30 256 (fun _ => true) [] (ChildResult.completed 0 [] [])
        ⟨false, none⟩).outLines = ["Supported extensions: .py, .sh".data]
    ∧ ("Supported extensions: .py, .sh".data)
        ∉ (mainRun 30 256 (fun _ => true) [] (ChildResult.completed 0 [] [])
            ⟨false, none⟩).errLines
    ∧ (mainRun 30 256 (fun _ => true) [] (ChildResult.completed 0 [] [])
        ⟨false, none⟩).errLines = ["No runnable code found in /workspace".data] := by
  decide

/-- C7: on normal completion the artifact is the exit_code line, then the
truncated stdout block (always present, even when stdout is empty), then the
truncated stderr block exactly when stderr is non-empty; with empty stderr
the artifact ends after the stdout block. -/
theorem C7_artifact_layout (T KB : Nat) (path ext : List Char) (rc : Int)
    (out err : List Char) (st : OutputDirState) :
    (err.take (KB * 1024) = [] →
      (run_snippet T KB path ext (ChildResult.completed rc out err) st).state.resultFile
        = some (("exit_code: ".data ++ renderInt rc ++ "\n".data)
            ++ ("--- stdout ---\n".data ++ out.take (KB * 1024) ++ "\n".data)))
    ∧ (err.take (KB * 1024) ≠ [] →
      (run_snippet T KB path ext (ChildResult.completed rc out err) st).state.resultFile
        = some ((("exit_code: ".data ++ renderInt rc ++ "\n".data)
            ++ ("--- stdout ---\n".data ++ out.take (KB * 1024) ++ "\n".data))
            ++ ("--- stderr ---\n".data ++ err.take (KB * 1024) ++ "\n".data))) := by
  constructor <;> intro h <;> simp [run_snippet, h, List.append_assoc]

/-- Witness for C7 with a concrete run whose stderr is empty. -/
theorem C7_artifact_layout_witness :
    (run_snippet 30 256 (pathJoin WORKSPACE ("a.py".data)) (".py".data)
        (ChildResult.completed 0 ("hi".data) []) ⟨false, none⟩).state.resultFile
      = some (("exit_code: ".data ++ renderInt 0 ++ "\n".data)
          ++ ("--- stdout ---\n".data ++ ("hi".data).take (256 * 1024) ++ "\n".data)) :=
  (C7_artifact_layout 30 256 (pathJoin WORKSPACE ("a.py".data)) (".py".data) 0
    ("hi".data) [] ⟨false, none⟩).1 (by decide)

/-- C8: a second completed run against the same workspace overwrites the
artifact: whatever the first run left in the output directory, the state
after the second run equals the state a single second run alone produces. -/
theorem C8_overwrite (T KB : Nat) (path ext : List Char) (c1 : ChildResult)
    (rc : Int) (out err : List Char) (st : OutputDirState) :
    (run_snippet T KB path ext (ChildResult.completed rc out err)
        (run_snippet T KB path ext c1 st).state).state
      = (run_snippet T KB path ext (ChildResult.completed rc out err) st).state := by
  cases c1 <;> rfl

/-- C9: the executed command is the interpreter token sequence registered for
the extension with the snippet path appended as the final argument, and the
child's working directory is the workspace root. -/
theorem C9_command_construction (T KB : Nat) (path ext : List Char)
    (child : ChildResult) (st : OutputDirState) (toks : List (List Char))
    (h : RUNNERS.lookup ext = some toks) :
    (run_snippet T KB path ext child st).cmd = toks ++ [path]
    ∧ (run_snippet T KB path ext child st).cwd = WORKSPACE := by
  cases child <;> simp [run_snippet, h]

/-- Witness for C9: extension .py maps to python3 and the command becomes
python3 followed by the absolute snippet path, run from the workspace root. -/
theorem C9_command_construction_witness :
    (run_snippet 30 256 (pathJoin WORKSPACE ("a.py".data)) (".py".data)
        (ChildResult.completed 0 [] []) ⟨false, none⟩).cmd
      = ["python3".data] ++ [pathJoin WORKSPACE ("a.py".data)]
    ∧ (run_snippet 30 256 (pathJoin WORKSPACE ("a.py".data)) (".py".data)
        (ChildResult.completed 0 [] []) ⟨false, none⟩).cwd = WORKSPACE :=
  C9_command_construction 30 256 (pathJoin WORKSPACE ("a.py".data)) (".py".data)
    (ChildResult.completed 0 [] []) ⟨false, none⟩ (["python3".data]) (by decide)

/-- C4: the locator returns none exactly when no listed entry is a regular
file with a registered extension; and whenever it returns a pair, that pair
comes from a matching entry whose name is lexicographically least among all
matching entries of the listing (so a unique match is returned, and among
several the lexicographically first). -/
theorem C4_locator_lexmin (isFile : List Char → Bool) (listing : List (List Char)) :
    (find_snippet isFile listing = none
      ↔ ∀ e ∈ listing, entryMatches isFile e = false)
    ∧ ∀ p x, find_snippet isFile listing = some (p, x) →
        ∃ e, e ∈ listing ∧ entryMatches isFile e = true ∧ p = pathJoin WORKSPACE e
          ∧ x = (splitext e).2
          ∧ ∀ f ∈ listing, entryMatches isFile f = true → nameLe e f := by
  have hperm := List.perm_insertionSort nameLe listing
  have hmem : ∀ a, a ∈ List.insertionSort nameLe listing ↔ a ∈ listing :=
    fun a => hperm.mem_iff
  have hsorted : List.Pairwise nameLe (List.insertionSort nameLe listing) := by
    haveI : IsTotal (List Char) nameLe := ⟨lexLe_total⟩
    haveI : IsTrans (List Char) nameLe := ⟨fun a b c => lexLe_trans a b c⟩
    exact List.sorted_insertionSort nameLe listing
  constructor
  · rw [show find_snippet isFile listing
        = findLoop isFile (List.insertionSort nameLe listing) from rfl,
      findLoop_none_iff]
    constructor
    · intro hall e he
      exact hall e ((hmem e).mpr he)
    · intro hall e he
      exact hall e ((hmem e).mp he)
  · intro p x h
    obtain ⟨e, he, hm, hp, hx, hmin⟩ :=
      findLoop_some isFile (List.insertionSort nameLe listing) hsorted p x h
    exact ⟨e, (hmem e).mp he, hm, hp, hx,
      fun f hf hmf => hmin f ((hmem f).mpr hf) hmf⟩

/-- Witness for C4 on a three-entry workspace: among the two matching files
the lexicographically first, a.py, is the one returned. -/
theorem C4_locator_lexmin_witness :
    ∃ e, e ∈ ["b.py".data, "a.py".data, "zz".data]
      ∧ entryMatches (fun _ => true) e = true
      ∧ pathJoin WORKSPACE ("a.py".data) = pathJoin WORKSPACE e
      ∧ ".py".data = (splitext e).2
      ∧ ∀ f ∈ ["b.py".data, "a.py".data, "zz".data],
          entryMatches (fun _ => true) f = true → nameLe e f :=
  (C4_locator_lexmin (fun _ => true) ["b.py".data, "a.py".data, "zz".data]).2
    (pathJoin WORKSPACE ("a.py".data)) (".py".data) (by decide)

/-- C6 counterexample: the entry named ".py" is a regular file the locator
considers; the substring from its last dot is ".py" itself, which is a key of
RUNNERS, so under the claim the locator would have to select it — but
splitext assigns it no extension and find_snippet returns none. -/
theorem C6_counterexample :
    rfindDot (".py".data) = some 0
    ∧ (".py".data).drop 0 = ".py".data
    ∧ (RUNNERS.lookup (".py".data)).isSome = true
    ∧ (splitext (".py".data)).2 = []
    ∧ find_snippet (fun _ => true) [".py".data] = none := by
  decide

/-- C6 (amended): the extension the locator matches against the registry is
the one splitext extracts: when the name has a last dot preceded somewhere by
a non-dot character, that is the substring from the last dot (dot included);
a name with no dot, or whose characters in front of its last dot are all
dots (e.g. the leading-dot name ".py"), yields no extension and, since the
empty extension is registered for no interpreter, such an entry is skipped. -/
theorem C6_extension_rule (entry : List Char) :
    (rfindDot entry = none → (splitext entry).2 = [])
    ∧ (∀ i, rfindDot entry = some i →
        ((∀ c ∈ entry.take i, c = '.') → (splitext entry).2 = [])
        ∧ (¬ (∀ c ∈ entry.take i, c = '.') →
            (splitext entry).1 = entry.take i ∧ (splitext entry).2 = entry.drop i))
    ∧ (RUNNERS.lookup (splitext entry).2 = none →
        ∀ isFile rest, findLoop isFile (entry :: rest) = findLoop isFile rest) := by
  refine ⟨?_, ?_, ?_⟩
  · intro h
    unfold splitext
    rw [h]
  · intro i h
    have hs := splitext_eq entry i h
    constructor
    · intro hall
      rw [hs, if_pos hall]
    · intro hall
      rw [hs, if_neg hall]
      exact ⟨rfl, rfl⟩
  · intro hl isFile rest
    cases hf : isFile (pathJoin WORKSPACE entry) with
    | true => simp [findLoop, hf, hl]
    | false => simp [findLoop, hf]

/-- Witness for C6 (amended) on the name "a.py": the last dot is at index 1,
the character in front of it is not a dot, and splitext splits there. -/
theorem C6_extension_rule_witness :
    (splitext ("a.py".data)).1 = ("a.py".data).take 1
    ∧ (splitext ("a.py".data)).2 = ("a.py".data).drop 1 :=
  ((C6_extension_rule ("a.py".data)).2.1 1 (by decide)).2 (by decide)

/-- C10: a regular file whose name is a leading dot followed by dot-free text
(such as a file literally named ".py" or ".sh") is treated as having no
extension: it never matches the registry and the locator loop skips it. -/
theorem C10_dotfile_skipped (t : List Char) (h : '.' ∉ t) :
    (splitext ('.' :: t)).2 = []
    ∧ (∀ isFile, entryMatches isFile ('.' :: t) = false)
    ∧ ∀ isFile rest, findLoop isFile (('.' :: t) :: rest) = findLoop isFile rest := by
  have hr : rfindDot ('.' :: t) = some 0 := by
    have hn : rfindDot t = none := (rfindDot_eq_none t).mpr h
    simp [rfindDot, hn]
  have hs : (splitext ('.' :: t)).2 = [] := by
    unfold splitext
    rw [hr]
    exact rfl
  have hlk : RUNNERS.lookup ([] : List Char) = none := rfl
  refine ⟨hs, ?_, ?_⟩
  · intro isFile
    simp [entryMatches, hs, hlk]
  · intro isFile rest
    cases hf : isFile (pathJoin WORKSPACE ('.' :: t)) with
    | true => simp [findLoop, hf, hs, hlk]
    | false => simp [findLoop, hf]

/-- Witness for C10 at the concrete file name ".py". -/
theorem C10_dotfile_skipped_witness :
    (splitext ('.' :: "py".data)).2 = []
    ∧ (∀ isFile, entryMatches isFile ('.' :: "py".data) = false)
    ∧ ∀ isFile rest,
        findLoop isFile (('.' :: "py".data) :: rest) = findLoop isFile rest :=
  C10_dotfile_skipped ("py".data) (by decide)

end CodeRunner
